import Mathlib

/-!
Shallow embedding of the autonomous poker agent (hand evaluator, strategy
engine and turn controller) and verification of the specification claims.
JavaScript numbers are modelled as rationals; the per-decision random bluff
draw is modelled as an explicit boolean input; collaborator failures are
modelled as explicit parameters and exceptions as `Except`.
-/

namespace PokerSpec

/-- The five tunable strategy parameters (`StrategyConfig` in the source). -/
structure StrategyConfig where
  raiseThreshold : ℚ
  callThreshold : ℚ
  foldThreshold : ℚ
  bluffProbability : ℚ
  aggressiveness : ℚ
  deriving DecidableEq, Repr

/-- The cumulative performance counters held by the strategy engine. -/
structure Stats where
  wins : ℕ
  losses : ℕ
  totalHands : ℕ
  successfulBluffs : ℕ
  failedBluffs : ℕ
  deriving DecidableEq, Repr

/-- The action tags of the `decide` return type. -/
inductive PokerAction where
  | FOLD
  | CHECK
  | CALL
  | RAISE
  | ALL_IN
  deriving DecidableEq, Repr

/-- A decision of the strategy engine: an action tag plus, for RAISE,
the target total-bet amount. -/
structure Decision where
  action : PokerAction
  amount : Option ℚ
  deriving DecidableEq, Repr

/-- `getDefaultStrategy` from the source. -/
def getDefaultStrategy : StrategyConfig :=
  { raiseThreshold := 6/10
    callThreshold := 4/10
    foldThreshold := 3/10
    bluffProbability := 15/100
    aggressiveness := 5/10 }

namespace HandEvaluator

/-- `HandEvaluator.normalizeRank` from the source (unknown rank strings map
to 0). -/
def normalizeRank (rank : String) : ℤ :=
  if rank = "2" then 2
  else if rank = "3" then 3
  else if rank = "4" then 4
  else if rank = "5" then 5
  else if rank = "6" then 6
  else if rank = "7" then 7
  else if rank = "8" then 8
  else if rank = "9" then 9
  else if rank = "10" then 10
  else if rank = "J" then 11
  else if rank = "Q" then 12
  else if rank = "K" then 13
  else if rank = "A" then 14
  else 0

/-- `HandEvaluator.checkStraightDraw` from the source: over the distinct
ranks sorted in descending order, slide a window of up to five consecutive
entries starting at each index `i ≤ length - 4` and succeed when the window's
first entry minus its last entry is at most 4; afterwards a wheel special
case succeeds whenever both an Ace (14) and a 2 are present. -/
def checkStraightDraw (sortedRanks : List ℤ) : Bool :=
  if sortedRanks.length < 4 then false
  else if (List.range (sortedRanks.length - 3)).any (fun i =>
      let slice := (sortedRanks.drop i).take 5
      decide (4 ≤ slice.length) && decide (slice.headD 0 - slice.getLastD 0 ≤ 4)) then
    true
  else if sortedRanks.contains 14 && sortedRanks.contains 2 then
    true
  else
    false

/-- `HandEvaluator.evaluate` from the source: filter hidden cards, compute
rank/suit frequency counts, assign a made-hand category strength by the
source's precedence order, then add flush-draw and straight-draw bonuses and
clamp at 1. -/
def evaluate (holeCards communityCards : List String) : ℚ :=
  let cards := (holeCards ++ communityCards).filter (fun c => c ≠ "??")
  if cards.length < 2 then 3/10
  else
    let ranks := cards.map (fun c => normalizeRank (c.dropRight 1))
    let suits := cards.map (fun c => c.takeRight 1)
    let distinctRanks := ranks.dedup
    let counts := List.insertionSort (fun a b : ℕ => b ≤ a)
      (distinctRanks.map (fun r => ranks.count r))
    let maxSuit := (suits.map (fun s => suits.count s)).foldl max 0
    let sortedRanks := List.insertionSort (fun a b : ℤ => b ≤ a) distinctRanks
    let hasStraightDraw := checkStraightDraw sortedRanks
    let strength : ℚ :=
      if counts.getD 0 0 = 4 then 95/100
      else if counts.getD 0 0 = 3 ∧ counts.getD 1 0 = 2 then 9/10
      else if 5 ≤ maxSuit then 85/100
      else if hasStraightDraw ∧ 5 ≤ sortedRanks.length then 8/10
      else if counts.getD 0 0 = 3 then 7/10
      else if counts.getD 0 0 = 2 ∧ counts.getD 1 0 = 2 then 6/10
      else if counts.getD 0 0 = 2 then
        let pairRank :=
          ((List.insertionSort (fun a b : ℤ => a ≤ b) distinctRanks).find?
            (fun r => ranks.count r = 2)).getD 0
        if 10 ≤ pairRank then 55/100 else 45/100
      else
        let highCard := ranks.foldl max 0
        if 12 ≤ highCard then 4/10 else 3/10
    let strength := if maxSuit = 4 then strength + 15/100 else strength
    let strength := if hasStraightDraw then strength + 1/10 else strength
    min strength 1

end HandEvaluator

namespace StrategyEngine

/-- `StrategyEngine.calculateRaiseAmount` from the source: half-pot base bet
scaled by `1 + aggressiveness * handStrength`, floored, capped at 70% of the
stack, and added to the current bet (result is a total target bet). -/
def calculateRaiseAmount (config : StrategyConfig) (pot chips handStrength currentBet : ℚ) : ℚ :=
  let baseBet := pot * (1/2)
  let aggressiveMultiplier := 1 + config.aggressiveness * handStrength
  let raiseAmount := baseBet * aggressiveMultiplier
  let maxBet := ⌊chips * (7/10)⌋
  currentBet + ((min ⌊raiseAmount⌋ maxBet : ℤ) : ℚ)

/-- `StrategyEngine.decide` from the source.  The random bluff draw
(`Math.random() < bluffProbability`) is modelled by the explicit boolean
input `shouldBluff`. -/
def decide (config : StrategyConfig) (handStrength callAmount pot chips currentBet : ℚ)
    (shouldBluff : Bool) : Decision :=
  let potOdds := if 0 < callAmount then callAmount / (pot + callAmount) else 0
  let effectiveStrength := if shouldBluff then min (handStrength + 3/10) 1 else handStrength
  if callAmount = 0 then
    if config.raiseThreshold ≤ effectiveStrength then
      { action := .RAISE
        amount := some (calculateRaiseAmount config pot chips effectiveStrength currentBet) }
    else
      { action := .CHECK, amount := none }
  else if config.raiseThreshold ≤ effectiveStrength then
    if callAmount < chips * (1/2) then
      { action := .RAISE
        amount := some (calculateRaiseAmount config pot chips effectiveStrength currentBet) }
    else
      { action := .CALL, amount := none }
  else if config.callThreshold ≤ effectiveStrength then
    if potOdds < 4/10 ∨ callAmount < chips * (2/10) then
      { action := .CALL, amount := none }
    else
      { action := .FOLD, amount := none }
  else if config.foldThreshold ≤ effectiveStrength then
    if potOdds < 2/10 ∧ callAmount < chips * (1/10) then
      { action := .CALL, amount := none }
    else
      { action := .FOLD, amount := none }
  else
    { action := .FOLD, amount := none }

/-- `StrategyEngine.recordResult` from the source. -/
def recordResult (stats : Stats) (won : Bool) : Stats :=
  if won then
    { stats with totalHands := stats.totalHands + 1, wins := stats.wins + 1 }
  else
    { stats with totalHands := stats.totalHands + 1, losses := stats.losses + 1 }

/-- The lifetime win rate used by `adaptStrategy` (0.5 before any hand). -/
def winRate (stats : Stats) : ℚ :=
  if 0 < stats.totalHands then (stats.wins : ℚ) / (stats.totalHands : ℚ) else 1/2

/-- `StrategyEngine.adaptStrategy` from the source: tighten when the win rate
is below 0.3, loosen when above 0.7, otherwise leave the config unchanged. -/
def adaptStrategy (config : StrategyConfig) (stats : Stats) : StrategyConfig :=
  let wr := winRate stats
  if wr < 3/10 then
    { config with
        raiseThreshold := min (config.raiseThreshold + 5/100) (8/10)
        foldThreshold := min (config.foldThreshold + 5/100) (5/10)
        bluffProbability := max (config.bluffProbability - 5/100) (5/100) }
  else if 7/10 < wr then
    { config with
        raiseThreshold := max (config.raiseThreshold - 5/100) (4/10)
        aggressiveness := min (config.aggressiveness + 1/10) 1 }
  else
    config

end StrategyEngine

/-- One participant record of the shared game state (`Player` in the
source). -/
structure Player where
  account : String
  chips : ℚ
  bet : ℚ
  totalBet : ℚ
  holeCards : List String
  folded : Bool
  allIn : Bool
  role : String
  active : Bool
  disconnected : Bool
  ready : Bool
  deriving DecidableEq, Repr

/-- The game phase reported by the external authority (`status` field). -/
inductive GStatus where
  | WAITING
  | PREFLOP
  | FLOP
  | TURN
  | RIVER
  | SHOWDOWN
  deriving DecidableEq, Repr

/-- The `PublicState` snapshot fetched each poll tick. -/
structure PublicState where
  status : GStatus
  players : List (String × Player)
  seats : List String
  dealerIndex : ℕ
  currentTurn : ℕ
  pot : ℚ
  communityCards : List String
  currentBet : ℚ
  minRaise : ℚ
  actionLog : List String
  winnerInfo : Option String
  myAccount : String
  deriving DecidableEq, Repr

/-- JavaScript `String.prototype.includes`: substring membership (the
needle occurs as a prefix of some suffix). -/
def jsIncludes (s sub : String) : Bool :=
  (List.range (s.data.length + 1)).any (fun i => sub.data.isPrefixOf (s.data.drop i))

/-- JavaScript truthiness of a nullable string (`winnerInfo` guard): present
and non-empty. -/
def truthyStr (o : Option String) : Bool :=
  match o with
  | none => false
  | some s => decide (s ≠ "")

/-- `PokerAgent.autonomousDecision` from the source, as a function of the
held snapshot, the strategy configuration and the per-decision bluff draw.
The result is the action submitted through the action sink (`none` when the
tick submits nothing); the second component is the amount argument passed to
the sink, which is dropped unless the action is RAISE with a truthy
(non-zero) amount. -/
def autonomousDecision (currentState : Option PublicState) (config : StrategyConfig)
    (shouldBluff : Bool) : Option (PokerAction × Option ℚ) :=
  match currentState with
  | none => none
  | some st =>
    if st.seats[st.currentTurn]? ≠ some st.myAccount then none
    else
      match st.players.lookup st.myAccount with
      | none => none
      | some me =>
        if me.folded || me.allIn then none
        else if me.holeCards.contains "??" then
          some ((if st.currentBet - me.bet = 0 then PokerAction.CHECK else PokerAction.FOLD),
            none)
        else
          let handStrength := HandEvaluator.evaluate me.holeCards st.communityCards
          let callAmount := st.currentBet - me.bet
          let d := StrategyEngine.decide config handStrength callAmount st.pot me.chips
            st.currentBet shouldBluff
          match d.amount with
          | some a =>
            if d.action = PokerAction.RAISE ∧ a ≠ 0 then some (PokerAction.RAISE, some a)
            else some (d.action, none)
          | none => some (d.action, none)

/-- The mutable state owned by one `PokerAgent` instance: the retained
snapshot, the strategy engine's counters and its configuration (the source
never calls `adaptStrategy`, so the configuration is constant across
ticks). -/
structure AgentState where
  currentState : Option PublicState
  stats : Stats
  config : StrategyConfig
  deriving DecidableEq, Repr

/-- Observable calls a tick makes on the external sinks. -/
inductive Obs where
  | action (kind : PokerAction) (amount : Option ℚ)
  | ready
  deriving DecidableEq, Repr

/-- `PokerAgent.updateState` from the source: the fetch result replaces the
retained snapshot on success; on failure the exception is swallowed and the
retained snapshot is kept unchanged. -/
def updateState (fetch : Option PublicState) (old : Option PublicState) : Option PublicState :=
  match fetch with
  | some st => some st
  | none => old

/-- The raw action sink (`server.remoteFunction('action', ...)`): fails when
the external authority rejects the submission. -/
def actionSink (submitOk : Bool) : Except String Unit :=
  if submitOk then Except.ok () else Except.error "action rejected"

/-- `PokerAgent.makeAction` from the source: the sink call is wrapped in a
catch-all, so a rejection never propagates. -/
def makeAction (submitOk : Bool) : Except String Unit :=
  match actionSink submitOk with
  | Except.ok _ => Except.ok ()
  | Except.error _ => Except.ok ()

/-- `PokerAgent.toggleReady` from the source: the remote call is NOT wrapped
in a try/catch, so a failure propagates to the caller. -/
def toggleReady (toggleOk : Bool) : Except String Unit :=
  if toggleOk then Except.ok () else Except.error "toggle failed"

/-- The WAITING/SHOWDOWN branch of the polling callback in
`PokerAgent.start`: record the hand result when the snapshot is a showdown
with truthy winner information, then toggle ready (and re-fetch once) when
this agent is present and not ready.  Returns the possibly re-fetched
snapshot, the updated counters and the observable sink calls. -/
def lobbyStep (fetch2 : Option PublicState) (toggleOk : Bool) (st : PublicState)
    (stats : Stats) : Except String (Option PublicState × Stats × List Obs) :=
  let stats1 :=
    if st.status = GStatus.SHOWDOWN ∧ truthyStr st.winnerInfo then
      StrategyEngine.recordResult stats (jsIncludes (st.winnerInfo.getD "") st.myAccount)
    else stats
  match st.players.lookup st.myAccount with
  | some me =>
    if me.ready = false then
      match toggleReady toggleOk with
      | Except.error e => Except.error e
      | Except.ok _ => Except.ok (updateState fetch2 (some st), stats1, [Obs.ready])
    else Except.ok (some st, stats1, [])
  | none => Except.ok (some st, stats1, [])

/-- One iteration of the polling callback installed by `PokerAgent.start`:
fetch the snapshot (keeping the old one on failure), return early when no
snapshot has ever been held, run the WAITING/SHOWDOWN branch, then run
`autonomousDecision` (submitting through the caught action sink) when the
originally fetched status is a betting street.  `fetch1`/`fetch2` are the
results of the two possible state fetches, `toggleOk`/`submitOk` the
outcomes of the ready and action sinks, and `shouldBluff` the per-decision
random draw. -/
def tick (fetch1 fetch2 : Option PublicState) (toggleOk submitOk shouldBluff : Bool)
    (s : AgentState) : Except String (AgentState × List Obs) :=
  match updateState fetch1 s.currentState with
  | none => Except.ok ({ s with currentState := none }, [])
  | some st =>
    let lobby :=
      if st.status = GStatus.WAITING ∨ st.status = GStatus.SHOWDOWN then
        lobbyStep fetch2 toggleOk st s.stats
      else Except.ok (some st, s.stats, [])
    match lobby with
    | Except.error e => Except.error e
    | Except.ok (cs2, stats2, obs1) =>
      if st.status ≠ GStatus.WAITING ∧ st.status ≠ GStatus.SHOWDOWN then
        match autonomousDecision cs2 s.config shouldBluff with
        | some (kind, amt) =>
          match makeAction submitOk with
          | Except.ok _ =>
            Except.ok ({ s with currentState := cs2, stats := stats2 },
              obs1 ++ [Obs.action kind amt])
          | Except.error e => Except.error e
        | none => Except.ok ({ s with currentState := cs2, stats := stats2 }, obs1)
      else Except.ok ({ s with currentState := cs2, stats := stats2 }, obs1)

/-- Modelled from the claim wording (C4): some window of the distinct sorted
ranks that is at least 4 ranks wide has max − min ≤ 4 (on the descending
sorted list a window is a contiguous slice, its max the first entry and its
min the last), or all five wheel ranks A, 2, 3, 4, 5 are present. -/
def claimStraightCond (l : List ℤ) : Bool :=
  ((List.range l.length).any fun i =>
    (List.range (l.length + 1)).any fun w =>
      decide (4 ≤ w) && decide (i + w ≤ l.length) &&
        decide (((l.drop i).take w).headD 0 - ((l.drop i).take w).getLastD 0 ≤ 4))
  || ([14, 2, 3, 4, 5].all fun r => l.contains r)

/-- The straight/straight-draw condition the source actually computes, stated
window-by-window: at least 4 distinct ranks, and either some slice of up to
five consecutive entries starting at an index `i ≤ length - 4` has first −
last ≤ 4, or both an Ace and a 2 occur among the distinct ranks. -/
def amendedStraightCond (l : List ℤ) : Bool :=
  decide (4 ≤ l.length) &&
  ((List.range (l.length - 3)).any (fun i =>
      decide (((l.drop i).take 5).headD 0 - ((l.drop i).take 5).getLastD 0 ≤ 4))
   || (l.contains 14 && l.contains 2))

/-- The claim C8 bounds on a strategy configuration: raiseThreshold in
[0.4, 0.8], foldThreshold ≤ 0.5, bluffProbability ≥ 0.05 and
aggressiveness ≤ 1. -/
def ConfigBounds (c : StrategyConfig) : Prop :=
  2/5 ≤ c.raiseThreshold ∧ c.raiseThreshold ≤ 4/5 ∧ c.foldThreshold ≤ 1/2 ∧
    1/20 ≤ c.bluffProbability ∧ c.aggressiveness ≤ 1

/-- A sample participant record for concrete runs of the controller. -/
def pAgent (cards : List String) (bet : ℚ) (rdy : Bool) : Player :=
  { account := "agent1", chips := 1000, bet := bet, totalBet := bet, holeCards := cards,
    folded := false, allIn := false, role := "", active := true, disconnected := false,
    ready := rdy }

/-- A sample one-seat snapshot for concrete runs of the controller. -/
def mkSnap (status : GStatus) (me : Player) (pot currentBet : ℚ) (community : List String)
    (winner : Option String) : PublicState :=
  { status := status, players := [("agent1", me)], seats := ["agent1"], dealerIndex := 0,
    currentTurn := 0, pot := pot, communityCards := community, currentBet := currentBet,
    minRaise := 10, actionLog := [], winnerInfo := winner, myAccount := "agent1" }

/-- A showdown snapshot naming this agent as winner, with the agent already
ready. -/
def showdownSnap : PublicState :=
  mkSnap GStatus.SHOWDOWN (pAgent ["AH", "KD"] 0 true) 0 0 [] (some "agent1 wins")

/-- A pre-flop snapshot on this agent's turn with visible pocket aces and
nothing owed. -/
def bettingSnap : PublicState :=
  mkSnap GStatus.PREFLOP (pAgent ["AH", "AS"] 0 true) 10 0 [] none

/-- A waiting-room snapshot in which this agent is not yet ready. -/
def waitingSnap : PublicState :=
  mkSnap GStatus.WAITING (pAgent ["AH", "KD"] 0 false) 0 0 [] none

/-- A flop snapshot on this agent's turn where one hole card is the hidden
sentinel and 10 is owed. -/
def hiddenSnap : PublicState :=
  mkSnap GStatus.FLOP (pAgent ["??", "AH"] 0 true) 50 10 ["2H", "3D", "9C"] none

/-- The all-zero performance counters at process start. -/
def stats0 : Stats :=
  { wins := 0, losses := 0, totalHands := 0, successfulBluffs := 0, failedBluffs := 0 }

end PokerSpec

set_option allowUnsafeReducibility true

section
attribute [local semireducible] Rat.mul Rat.add Rat.sub Rat.inv

open PokerSpec

theorem makeAction_never_fails (submitOk : Bool) : makeAction submitOk = Except.ok () := by
  cases submitOk <;> rfl

/-- Claim C1 fails on the code: with the default configuration, raw strength
0.4, no cost to act, pot 100, chips 1000, current bet 0 and the bluff drawn,
`decide` returns RAISE with total bet 67 (the sizing uses the bluff-adjusted
effective strength 0.7), while the claimed raw-strength formula
currentBet + min(floor(0.5*pot*(1+aggressiveness*0.4)), floor(0.7*chips))
gives 60. -/
theorem claim1_counterexample :
    StrategyEngine.decide getDefaultStrategy (2/5) 0 100 1000 0 true =
        { action := PokerAction.RAISE, amount := some 67 } ∧
      (67 : ℚ) ≠
        0 + ((min ⌊(100 : ℚ) * (1/2) * (1 + (5/10) * (2/5))⌋ ⌊(1000 : ℚ) * (7/10)⌋ : ℤ) : ℚ) :=
  ⟨by decide, by decide⟩

/-- Claim C2 names a real code bug: across two consecutive poll ticks that
both fetch the same SHOWDOWN snapshot (winner information naming this agent,
agent already ready), the controller calls `recordResult` on each tick, so
`totalHands` and `wins` reach 2 after the run although only one showdown was
observed. -/
theorem claim2_double_record :
    tick (some showdownSnap) none true true false
        { currentState := none, stats := stats0, config := getDefaultStrategy } =
      Except.ok ({ currentState := some showdownSnap,
                   stats := { wins := 1, losses := 0, totalHands := 1, successfulBluffs := 0,
                              failedBluffs := 0 },
                   config := getDefaultStrategy }, []) ∧
    tick (some showdownSnap) none true true false
        { currentState := some showdownSnap,
          stats := { wins := 1, losses := 0, totalHands := 1, successfulBluffs := 0,
                     failedBluffs := 0 },
          config := getDefaultStrategy } =
      Except.ok ({ currentState := some showdownSnap,
                   stats := { wins := 2, losses := 0, totalHands := 2, successfulBluffs := 0,
                              failedBluffs := 0 },
                   config := getDefaultStrategy }, []) :=
  ⟨by rfl, by rfl⟩

/-- Claim C3 fails on the code: on a tick whose state fetch fails, a
previously retained betting-street snapshot is kept and acted upon — here
the tick submits CHECK from the stale snapshot instead of skipping. -/
theorem claim3_counterexample :
    tick none none true true false
        { currentState := some bettingSnap, stats := stats0, config := getDefaultStrategy } =
      Except.ok ({ currentState := some bettingSnap, stats := stats0,
                   config := getDefaultStrategy },
                  [Obs.action PokerAction.CHECK none]) := by
  rfl

end

section

open PokerSpec

/-- Claim C1 amended: every RAISE returned by `StrategyEngine.decide` carries
amount currentBet + min(floor(0.5*pot*(1+aggressiveness*effectiveStrength)),
floor(0.7*chips)) where effectiveStrength is the bluff-adjusted strength of
this decision (equal to the raw strength exactly when the bluff is not
drawn). -/
theorem claim1_raise_amount (config : StrategyConfig)
    (handStrength callAmount pot chips currentBet : ℚ) (shouldBluff : Bool)
    (h : (StrategyEngine.decide config handStrength callAmount pot chips currentBet
      shouldBluff).action = PokerAction.RAISE) :
    (StrategyEngine.decide config handStrength callAmount pot chips currentBet
        shouldBluff).amount =
      some (currentBet +
        ((min ⌊pot * (1/2) * (1 + config.aggressiveness *
              (if shouldBluff then min (handStrength + 3/10) 1 else handStrength))⌋
            ⌊chips * (7/10)⌋ : ℤ) : ℚ)) := by
  simp only [StrategyEngine.decide] at h ⊢
  split_ifs at h ⊢ <;> rfl

/-- Claim C3 amended: a fetch-failure tick behaves exactly like a tick whose
fetch returned the previously retained snapshot — it skips only when no
snapshot has ever been fetched, and otherwise re-runs the tick logic
(including decisions and submissions) on the stale snapshot. -/
theorem claim3_stale_snapshot (fetch2 : Option PublicState)
    (toggleOk submitOk shouldBluff : Bool) (s : AgentState) :
    tick none fetch2 toggleOk submitOk shouldBluff s =
      tick s.currentState fetch2 toggleOk submitOk shouldBluff s := by
  cases h : s.currentState <;> simp [tick, updateState, h]

theorem any_congr_on {α : Type} (f g : α → Bool) (l : List α)
    (h : ∀ a ∈ l, f a = g a) : l.any f = l.any g := by
  induction l with
  | nil => rfl
  | cons x xs ih =>
    simp only [List.any_cons]
    rw [h x (by simp), ih (fun a ha => h a (by simp [ha]))]

/-- Claim C4 amended: the straight/straight-draw condition computed by
`checkStraightDraw` holds exactly when there are at least 4 distinct ranks
and either some slice of up to five consecutive entries of the descending
sorted distinct ranks (starting at an index `i ≤ length - 4`) has first −
last ≤ 4, or both an Ace and a 2 occur among the distinct ranks — the wheel
special case requires only the Ace and the 2, not the 3, 4 and 5. -/
theorem claim4_straight_window (l : List ℤ) :
    HandEvaluator.checkStraightDraw l = amendedStraightCond l := by
  simp only [HandEvaluator.checkStraightDraw, amendedStraightCond]
  by_cases h : l.length < 4
  · have h4 : ¬ (4 ≤ l.length) := by omega
    simp [h, h4]
  · have h4 : 4 ≤ l.length := Nat.not_lt.mp h
    have hg : ∀ i ∈ List.range (l.length - 3),
        (decide (4 ≤ ((l.drop i).take 5).length) &&
          decide (((l.drop i).take 5).headD 0 - ((l.drop i).take 5).getLastD 0 ≤ 4)) =
        decide (((l.drop i).take 5).headD 0 - ((l.drop i).take 5).getLastD 0 ≤ 4) := by
      intro i hi
      have hi' := List.mem_range.mp hi
      have hlen : 4 ≤ ((l.drop i).take 5).length := by
        rw [List.length_take, List.length_drop]
        omega
      rw [decide_eq_true hlen, Bool.true_and]
    rw [if_neg h, any_congr_on _ _ _ hg]
    have hd : decide (4 ≤ l.length) = true := by simp [h4]
    rw [hd, Bool.true_and]
    cases hA : (List.range (l.length - 3)).any
        (fun i => decide (((l.drop i).take 5).headD 0 - ((l.drop i).take 5).getLastD 0 ≤ 4)) <;>
      cases hW : l.contains 14 && l.contains 2 <;> simp [hA, hW]

/-- Claim C5 amended: as long as the ready-toggle command succeeds, every
tick completes without propagating an exception, for every combination of
state-fetch failure and action-submission rejection (both of those are
caught inside the tick); only a ready-toggle failure can escape. -/
theorem claim5_no_escape (fetch1 fetch2 : Option PublicState) (submitOk shouldBluff : Bool)
    (s : AgentState) :
    ∃ r, tick fetch1 fetch2 true submitOk shouldBluff s = Except.ok r := by
  have hlobby : ∀ st stats, ∃ r, lobbyStep fetch2 true st stats = Except.ok r := by
    intro st stats
    unfold lobbyStep
    cases st.players.lookup st.myAccount with
    | none => exact ⟨_, rfl⟩
    | some me => cases hr : me.ready <;> simp [hr, toggleReady]
  unfold tick
  cases updateState fetch1 s.currentState with
  | none => exact ⟨_, rfl⟩
  | some st =>
    dsimp only
    by_cases hl : st.status = GStatus.WAITING ∨ st.status = GStatus.SHOWDOWN
    · obtain ⟨⟨cs2, stats2, obs1⟩, hr⟩ := hlobby st s.stats
      rw [if_pos hl, hr]
      dsimp only
      have hb : ¬ (st.status ≠ GStatus.WAITING ∧ st.status ≠ GStatus.SHOWDOWN) := by tauto
      rw [if_neg hb]
      exact ⟨_, rfl⟩
    · rw [if_neg hl]
      dsimp only
      have hb : st.status ≠ GStatus.WAITING ∧ st.status ≠ GStatus.SHOWDOWN := by tauto
      rw [if_pos hb]
      cases autonomousDecision (some st) s.config shouldBluff with
      | none => exact ⟨_, rfl⟩
      | some d =>
        obtain ⟨kind, amt⟩ := d
        rw [makeAction_never_fails]
        exact ⟨_, rfl⟩

/-- Claim C6 amended: with coherent thresholds (foldThreshold at most
callThreshold and raiseThreshold, as the default configuration satisfies),
raw strength below foldThreshold, pot odds at least 0.2 and a positive call
of at least 10% of the stack, the NON-bluff-drawn outcome of `decide` is
FOLD; the bluff-drawn outcome can instead CALL or RAISE (see the
counterexample). -/
theorem claim6_nonbluff_fold (config : StrategyConfig)
    (handStrength callAmount pot chips currentBet : ℚ)
    (hc1 : config.foldThreshold ≤ config.callThreshold)
    (hc2 : config.foldThreshold ≤ config.raiseThreshold)
    (h1 : handStrength < config.foldThreshold)
    (h2 : 2/10 ≤ callAmount / (pot + callAmount))
    (h3 : chips * (1/10) ≤ callAmount)
    (h4 : 0 < callAmount) :
    (StrategyEngine.decide config handStrength callAmount pot chips currentBet false).action =
      PokerAction.FOLD := by
  have hne : callAmount ≠ 0 := ne_of_gt h4
  have hft : ¬ (config.foldThreshold ≤ handStrength) := not_le.mpr h1
  have hct : ¬ (config.callThreshold ≤ handStrength) :=
    not_le.mpr (lt_of_lt_of_le h1 hc1)
  have hrt : ¬ (config.raiseThreshold ≤ handStrength) :=
    not_le.mpr (lt_of_lt_of_le h1 hc2)
  simp only [StrategyEngine.decide, Bool.false_eq_true, if_false]
  rw [if_neg hne, if_neg hrt, if_neg hct, if_neg hft]

/-- Claim C7: with no cost to act, strength in [0,1], non-negative pot,
stack, current bet and aggressiveness, a raw strength at or above
raiseThreshold yields RAISE with a total bet of at least the current bet for
both outcomes of the bluff draw, and an effective strength below
raiseThreshold yields CHECK. -/
theorem claim7_free_action (config : StrategyConfig)
    (handStrength pot chips currentBet : ℚ) (shouldBluff : Bool)
    (h0 : 0 ≤ handStrength) (h1 : handStrength ≤ 1)
    (hpot : 0 ≤ pot) (hchips : 0 ≤ chips) (hcb : 0 ≤ currentBet)
    (hagg : 0 ≤ config.aggressiveness) :
    (config.raiseThreshold ≤ handStrength →
      ∃ a, StrategyEngine.decide config handStrength 0 pot chips currentBet shouldBluff =
          { action := PokerAction.RAISE, amount := some a } ∧ currentBet ≤ a) ∧
    ((if shouldBluff then min (handStrength + 3/10) 1 else handStrength) <
        config.raiseThreshold →
      StrategyEngine.decide config handStrength 0 pot chips currentBet shouldBluff =
        { action := PokerAction.CHECK, amount := none }) := by
  have hes_ge : handStrength ≤
      (if shouldBluff then min (handStrength + 3/10) 1 else handStrength) := by
    cases shouldBluff
    · simp
    · simp only [if_pos]
      exact le_min (by linarith) h1
  constructor
  · intro hrt
    have hrt' : config.raiseThreshold ≤
        (if shouldBluff then min (handStrength + 3/10) 1 else handStrength) :=
      le_trans hrt hes_ge
    refine ⟨StrategyEngine.calculateRaiseAmount config pot chips
      (if shouldBluff then min (handStrength + 3/10) 1 else handStrength) currentBet,
      ?_, ?_⟩
    · simp only [StrategyEngine.decide]
      rw [if_pos trivial, if_pos hrt']
    · have h0es : (0 : ℚ) ≤
          (if shouldBluff then min (handStrength + 3/10) 1 else handStrength) :=
        le_trans h0 hes_ge
      have hra : (0 : ℚ) ≤ pot * (1/2) * (1 + config.aggressiveness *
          (if shouldBluff then min (handStrength + 3/10) 1 else handStrength)) := by
        have := mul_nonneg hagg h0es
        have := mul_nonneg hpot (by norm_num : (0 : ℚ) ≤ 1/2)
        nlinarith
      have hf1 : (0 : ℤ) ≤ ⌊pot * (1/2) * (1 + config.aggressiveness *
          (if shouldBluff then min (handStrength + 3/10) 1 else handStrength))⌋ :=
        Int.le_floor.mpr (by exact_mod_cast hra)
      have hf2 : (0 : ℤ) ≤ ⌊chips * (7/10)⌋ :=
        Int.le_floor.mpr (by exact_mod_cast mul_nonneg hchips (by norm_num : (0:ℚ) ≤ 7/10))
      have hmin : (0 : ℤ) ≤ min ⌊pot * (1/2) * (1 + config.aggressiveness *
          (if shouldBluff then min (handStrength + 3/10) 1 else handStrength))⌋
            ⌊chips * (7/10)⌋ := le_min hf1 hf2
      have hminq : (0 : ℚ) ≤ ((min ⌊pot * (1/2) * (1 + config.aggressiveness *
          (if shouldBluff then min (handStrength + 3/10) 1 else handStrength))⌋
            ⌊chips * (7/10)⌋ : ℤ) : ℚ) := by exact_mod_cast hmin
      unfold StrategyEngine.calculateRaiseAmount
      linarith
  · intro hlt
    simp only [StrategyEngine.decide]
    rw [if_pos trivial, if_neg (not_le.mpr hlt)]

theorem adaptStrategy_bounds (c : StrategyConfig) (st : Stats) (h : ConfigBounds c) :
    ConfigBounds (StrategyEngine.adaptStrategy c st) := by
  obtain ⟨h1, h2, h3, h4, h5⟩ := h
  simp only [StrategyEngine.adaptStrategy]
  split_ifs with hw1 hw2
  · exact ⟨le_min (by linarith) (by norm_num),
      le_trans (min_le_right _ _) (by norm_num),
      le_trans (min_le_right _ _) (by norm_num),
      le_trans (by norm_num) (le_max_right _ _), h5⟩
  · exact ⟨le_trans (by norm_num) (le_max_right _ _),
      max_le (by linarith) (by norm_num), h3, h4, min_le_right _ _⟩
  · exact ⟨h1, h2, h3, h4, h5⟩

theorem adaptStrategy_foldl_bounds (runs : List Stats) (c : StrategyConfig)
    (h : ConfigBounds c) :
    ConfigBounds (runs.foldl StrategyEngine.adaptStrategy c) := by
  induction runs generalizing c with
  | nil => exact h
  | cons st rest ih => exact ih _ (adaptStrategy_bounds _ _ h)

/-- Claim C8: from any configuration with raiseThreshold in [0.4, 0.8],
foldThreshold ≤ 0.5, bluffProbability ≥ 0.05 and aggressiveness ≤ 1, every
sequence of `adaptStrategy` calls (each seeing some counter state) keeps all
of those bounds, and a single call whose win rate lies in [0.3, 0.7] leaves
the configuration unchanged. -/
theorem claim8_adapt_bounds (config : StrategyConfig) (h : ConfigBounds config) :
    (∀ runs : List Stats,
      ConfigBounds (runs.foldl StrategyEngine.adaptStrategy config)) ∧
    (∀ st : Stats, 3/10 ≤ StrategyEngine.winRate st → StrategyEngine.winRate st ≤ 7/10 →
      StrategyEngine.adaptStrategy config st = config) := by
  refine ⟨fun runs => adaptStrategy_foldl_bounds runs config h, fun st hw1 hw2 => ?_⟩
  simp only [StrategyEngine.adaptStrategy]
  rw [if_neg (not_lt.mpr hw1), if_neg (not_lt.mpr hw2)]

/-- Claim C9: on this agent's turn, not folded or all-in, with a hidden
hole card, the controller submits CHECK when nothing is owed and FOLD
otherwise, for every strategy configuration and every outcome of the bluff
draw — the evaluator and the strategy engine play no part in the result. -/
theorem claim9_hidden_cards (st : PublicState) (me : Player) (config : StrategyConfig)
    (shouldBluff : Bool)
    (hturn : st.seats[st.currentTurn]? = some st.myAccount)
    (hme : st.players.lookup st.myAccount = some me)
    (hfold : me.folded = false) (hallin : me.allIn = false)
    (hhidden : me.holeCards.contains "??" = true) :
    autonomousDecision (some st) config shouldBluff =
      some ((if st.currentBet - me.bet = 0 then PokerAction.CHECK else PokerAction.FOLD),
        none) := by
  have hturn' : ¬ (st.seats[st.currentTurn]? ≠ some st.myAccount) := fun hne => hne hturn
  simp only [autonomousDecision]
  rw [if_neg hturn', hme]
  simp only [hfold, hallin, Bool.or_self, Bool.false_eq_true, if_false, hhidden, if_true]

theorem decide_action_ne_allin (config : StrategyConfig)
    (handStrength callAmount pot chips currentBet : ℚ) (shouldBluff : Bool) :
    (StrategyEngine.decide config handStrength callAmount pot chips currentBet
      shouldBluff).action ≠ PokerAction.ALL_IN := by
  simp only [StrategyEngine.decide]
  split_ifs <;> simp

/-- Claim C10: the strategy engine never returns ALL_IN for any input and
any bluff-draw outcome, and consequently the controller's betting-street
decision step never submits an ALL_IN action. -/
theorem claim10_no_all_in :
    (∀ (config : StrategyConfig) (handStrength callAmount pot chips currentBet : ℚ)
        (shouldBluff : Bool),
      (StrategyEngine.decide config handStrength callAmount pot chips currentBet
        shouldBluff).action ≠ PokerAction.ALL_IN) ∧
    (∀ (currentState : Option PublicState) (config : StrategyConfig) (shouldBluff : Bool)
        (amt : Option ℚ),
      autonomousDecision currentState config shouldBluff ≠
        some (PokerAction.ALL_IN, amt)) := by
  refine ⟨fun config hs ca pot chips cb b => decide_action_ne_allin config hs ca pot chips cb b,
    fun cs config b amt => ?_⟩
  cases cs with
  | none => simp [autonomousDecision]
  | some st =>
    simp only [autonomousDecision]
    by_cases ht : st.seats[st.currentTurn]? ≠ some st.myAccount
    · rw [if_pos ht]
      simp
    · rw [if_neg ht]
      cases hme : st.players.lookup st.myAccount with
      | none => simp
      | some me =>
        by_cases hfa : (me.folded || me.allIn) = true
        · simp [hfa]
        · simp only [Bool.not_eq_true] at hfa
          simp only [hfa, Bool.false_eq_true, if_false]
          by_cases hh : me.holeCards.contains "??" = true
          · simp only [hh, if_true]
            intro heq
            rw [Option.some_inj, Prod.mk.injEq] at heq
            rcases heq with ⟨heq1, -⟩
            revert heq1
            split_ifs <;> simp
          · simp only [Bool.not_eq_true] at hh
            simp only [hh, Bool.false_eq_true, if_false]
            have hd := decide_action_ne_allin config
              (HandEvaluator.evaluate me.holeCards st.communityCards)
              (st.currentBet - me.bet) st.pot me.chips st.currentBet b
            cases hda : (StrategyEngine.decide config
                (HandEvaluator.evaluate me.holeCards st.communityCards)
                (st.currentBet - me.bet) st.pot me.chips st.currentBet b).amount with
            | none =>
              simp only [hda]
              intro heq
              rw [Option.some_inj, Prod.mk.injEq] at heq
              exact hd heq.1
            | some a =>
              simp only [hda]
              split_ifs with hra
              · simp
              · intro heq
                rw [Option.some_inj, Prod.mk.injEq] at heq
                exact hd heq.1

end

section
attribute [local semireducible] Rat.mul Rat.add Rat.sub Rat.inv

open PokerSpec

theorem claim1_raise_amount_witness :
    (StrategyEngine.decide getDefaultStrategy (3/4) 0 100 1000 0 false).amount =
      some (0 +
        ((min ⌊(100 : ℚ) * (1/2) * (1 + getDefaultStrategy.aggressiveness *
              (if false then min ((3/4 : ℚ) + 3/10) 1 else (3/4 : ℚ)))⌋
            ⌊(1000 : ℚ) * (7/10)⌋ : ℤ) : ℚ)) :=
  claim1_raise_amount getDefaultStrategy (3/4) 0 100 1000 0 false (by decide)

/-- Claim C4 fails on the code: on the distinct descending ranks
[A, 9, 7, 2] the source condition holds (the wheel special case fires from
the Ace and the 2 alone) while the claimed condition is false (no 4-wide
window has max − min ≤ 4 and the ranks 3, 4, 5 are absent). -/
theorem claim4_counterexample :
    HandEvaluator.checkStraightDraw [14, 9, 7, 2] = true ∧
      claimStraightCond [14, 9, 7, 2] = false :=
  ⟨by decide, by decide⟩

/-- Claim C5 fails on the code: a tick that fetches a WAITING snapshot in
which this agent is not ready and whose ready-toggle command fails ends in
an uncaught exception — `toggleReady` has no try/catch. -/
theorem claim5_counterexample :
    tick (some waitingSnap) none false true false
        { currentState := none, stats := stats0, config := getDefaultStrategy } =
      Except.error "toggle failed" := by
  rfl

/-- Claim C6 fails on the code: with the default configuration, raw strength
0.2 (below foldThreshold 0.3), pot 300, call 100 (pot odds 0.25 ≥ 0.2 and
exactly 10% of the 1000 stack), the bluff-drawn outcome lifts the effective
strength to 0.5 and the decision is CALL, not FOLD. -/
theorem claim6_counterexample :
    (1/5 : ℚ) < getDefaultStrategy.foldThreshold ∧
    (2/10 : ℚ) ≤ 100 / (300 + 100) ∧
    (1000 : ℚ) * (1/10) ≤ 100 ∧
    (0 : ℚ) < 100 ∧
    StrategyEngine.decide getDefaultStrategy (1/5) 100 300 1000 50 true =
      { action := PokerAction.CALL, amount := none } :=
  ⟨by decide, by decide, by decide, by decide, by decide⟩

theorem claim6_nonbluff_fold_witness :
    (StrategyEngine.decide getDefaultStrategy (1/5) 100 300 1000 50 false).action =
      PokerAction.FOLD :=
  claim6_nonbluff_fold getDefaultStrategy (1/5) 100 300 1000 50 (by decide) (by decide)
    (by decide) (by decide) (by decide) (by decide)

theorem claim7_free_action_witness :
    ∃ a, StrategyEngine.decide getDefaultStrategy (3/4) 0 100 1000 5 false =
        { action := PokerAction.RAISE, amount := some a } ∧ (5 : ℚ) ≤ a :=
  (claim7_free_action getDefaultStrategy (3/4) 100 1000 5 false (by decide) (by decide)
    (by decide) (by decide) (by decide) (by decide)).1 (by decide)

theorem claim8_adapt_bounds_witness :
    ConfigBounds (List.foldl StrategyEngine.adaptStrategy getDefaultStrategy
      [{ wins := 0, losses := 5, totalHands := 5, successfulBluffs := 0, failedBluffs := 0 }]) ∧
    StrategyEngine.adaptStrategy getDefaultStrategy
        { wins := 2, losses := 2, totalHands := 4, successfulBluffs := 0, failedBluffs := 0 } =
      getDefaultStrategy :=
  ⟨(claim8_adapt_bounds getDefaultStrategy
      (by norm_num [ConfigBounds, getDefaultStrategy])).1 _,
   (claim8_adapt_bounds getDefaultStrategy
      (by norm_num [ConfigBounds, getDefaultStrategy])).2 _ (by decide) (by decide)⟩

theorem claim9_hidden_cards_witness :
    autonomousDecision (some hiddenSnap) getDefaultStrategy true =
      some (PokerAction.FOLD, none) := by
  rw [claim9_hidden_cards hiddenSnap (pAgent ["??", "AH"] 0 true) getDefaultStrategy true
    (by decide) (by decide) (by decide) (by decide) (by decide)]
  decide

end
